import Mathlib

/-!
# Verification of the background-removal server's admission/queue core

Shallow embedding of `src/server.js`: the `POST /remove-bg` handler, the
global `requestQueue` / `isProcessing` pair, `processQueue`, and
`processBackgroundRemoval`.

The server runs on a single-threaded cooperative event loop: code between
two `await` points executes atomically, and distinct requests interleave
only at `await` points.  We model the system as a transition function over
atomic segments of the source:

* `Event.submit r` — the handler body of `app.post("/remove-bg")` from entry
  up to the first suspension point: the missing-file check (line 121), the
  MIME check (line 136), the capacity check `requestQueue.length >= 3`
  (line 145), and, when all pass, the start of `writeFile` (line 154).
* `Event.writeDone r` — resumption after `await writeFile`: the temp file
  now exists, the job is pushed (line 160) and `processQueue()` runs its
  synchronous prefix (lines 54-57), possibly dispatching a job.  When
  `writeFile` rejected, the handler's catch block runs instead
  (lines 163-173): unlink the temp path, then 500 unless headers were sent.
* `Event.gatewayDone r` — resumption of `processBackgroundRemoval` after
  `await removeBackground` settles: on success unlink then respond 200
  `image/png` (lines 86-101); on failure unlink then, if `!res.headersSent`,
  respond 500 (lines 103-114); in both cases the `finally` of
  `processQueue` (lines 61-69) clears `isProcessing` and schedules
  `setTimeout(processQueue, 100)`.
* `Event.dispatchTimer` — one pending `setTimeout(processQueue, 100)`
  callback fires and runs `processQueue`.

External collaborators (multer upload, the `removeBackground` engine, the
`fs` write) are oracles in the request environment `ReqInfo`, per the
boundary contracts: `res` delivery does not throw, the gateway either
yields bytes or fails.  Temp files, unlink attempts, enqueues, dispatches
and completions are recorded in ghost history fields so that exactly-once
and FIFO properties are stateable.
-/

/-- Oracle describing one request `r` and how its external collaborators
behave: whether multer produced a file buffer, its MIME type, whether the
`writeFile` of the temp artifact succeeds, and whether `removeBackground`
succeeds. -/
structure ReqInfo where
  hasFile : Bool
  mime : String
  writeOk : Bool
  gatewayOk : Bool

/-- One HTTP response sent on some request's `res`: request id, status
code, and the Content-Type of the body (`res.json` bodies are
`application/json`; the success path sets `image/png`, line 97). -/
structure HttpResp where
  rid : Nat
  status : Nat
  contentType : String
  deriving Repr, DecidableEq

/-- Global server state.  `requestQueue` and `isProcessing` are the two
shared mutables of `server.js` (lines 47-48).  `writing` holds requests
suspended inside `await writeFile`; `processingJobs` holds jobs dequeued by
`processQueue` whose `processBackgroundRemoval` has not settled;
`pendingDispatch` counts scheduled `setTimeout(processQueue, 100)`
callbacks; `files` is the set of existing temp files.  `submitted`,
`created`, `released`, `enqueued`, `completed`, `responses` are ghost
histories (in event order). -/
structure SysState where
  submitted : List Nat
  writing : List Nat
  requestQueue : List Nat
  isProcessing : Bool
  processingJobs : List Nat
  pendingDispatch : Nat
  files : List Nat
  created : List Nat
  released : List Nat
  enqueued : List Nat
  completed : List Nat
  responses : List HttpResp
  deriving Repr, DecidableEq

/-- Fresh server state: empty queue, executor idle, no files. -/
def initState : SysState :=
  { submitted := [], writing := [], requestQueue := [], isProcessing := false
    processingJobs := [], pendingDispatch := 0, files := [], created := []
    released := [], enqueued := [], completed := [], responses := [] }

/-- The `ALLOWED_MIME_TYPES` list of `server.js` (lines 19-29). -/
def ALLOWED_MIME_TYPES : List String :=
  ["image/jpeg", "image/jpg", "image/png", "image/webp", "image/gif",
   "image/bmp", "image/tiff", "image/heic", "image/heif"]

/-- The queue-capacity literal of the admission check
`requestQueue.length >= 3` (line 145); the spec calls it
`maxQueueLength`. -/
def maxQueueLength : Nat := 3

/-- Number of responses already sent on request `r`. -/
def respCount (l : List HttpResp) (r : Nat) : Nat :=
  l.countP (fun p => p.rid == r)

/-- Model of `res.headersSent`: some response for `r` has been started. -/
def headersSent (s : SysState) (r : Nat) : Bool :=
  decide (0 < respCount s.responses r)

/-- Synchronous prefix of `processQueue` (lines 53-57): return unless the
queue is non-empty and the executor slot is free; otherwise set
`isProcessing` and shift the head job into processing.  There is no
suspension point between the check, the flag set and the shift. -/
def processQueue (s : SysState) : SysState :=
  match s.requestQueue, s.isProcessing with
  | j :: rest, false =>
      { s with isProcessing := true, requestQueue := rest
               processingJobs := s.processingJobs ++ [j] }
  | _, _ => s

/-- The handler body of `app.post("/remove-bg")` up to its first
suspension point (lines 121-154).  A request id is submitted at most once;
rejections respond and stop; an accepted request starts `writeFile` and
suspends (enters `writing`). -/
def submitStep (env : Nat → ReqInfo) (r : Nat) (s : SysState) : SysState :=
  if r ∈ s.submitted then s
  else
    let s1 := { s with submitted := s.submitted ++ [r] }
    if (env r).hasFile = false then
      { s1 with responses := s1.responses ++ [⟨r, 400, "application/json"⟩] }
    else if (env r).mime ∉ ALLOWED_MIME_TYPES then
      { s1 with responses := s1.responses ++ [⟨r, 400, "application/json"⟩] }
    else if maxQueueLength ≤ s1.requestQueue.length then
      { s1 with responses := s1.responses ++ [⟨r, 503, "application/json"⟩] }
    else
      { s1 with writing := s1.writing ++ [r] }

/-- Resumption after `await writeFile(inPath, ...)` (line 154).  The temp
artifact now exists at `inPath`.  On success the handler pushes the job
(line 160) and calls `processQueue()` (line 161).  On failure the catch
block (lines 163-173) unlinks `inPath` and responds 500 unless headers
were already sent. -/
def writeDoneStep (env : Nat → ReqInfo) (r : Nat) (s : SysState) : SysState :=
  if r ∈ s.writing then
    let s1 := { s with writing := s.writing.erase r
                       files := s.files ++ [r], created := s.created ++ [r] }
    if (env r).writeOk then
      processQueue { s1 with requestQueue := s1.requestQueue ++ [r]
                             enqueued := s1.enqueued ++ [r] }
    else
      let s2 := { s1 with files := s1.files.erase r
                          released := s1.released ++ [r] }
      if headersSent s2 r then s2
      else { s2 with responses := s2.responses ++ [⟨r, 500, "application/json"⟩] }
  else s

/-- Settlement of `processBackgroundRemoval` (lines 72-115) for the job
`r` currently in processing, followed by the `finally` block of
`processQueue` (lines 61-69).  Success: unlink the temp file (line 93)
then respond 200 `image/png` (lines 96-101).  Failure: unlink (line 108)
then respond 500 if `!res.headersSent` (lines 111-113).  Either way the
`finally` clears `isProcessing` and schedules `setTimeout(processQueue,
100)`. -/
def processBackgroundRemovalStep (env : Nat → ReqInfo) (r : Nat)
    (s : SysState) : SysState :=
  if r ∈ s.processingJobs then
    let s1 := { s with files := s.files.erase r, released := s.released ++ [r] }
    let s2 :=
      if (env r).gatewayOk then
        { s1 with responses := s1.responses ++ [⟨r, 200, "image/png"⟩] }
      else if headersSent s1 r then s1
      else { s1 with responses := s1.responses ++ [⟨r, 500, "application/json"⟩] }
    { s2 with processingJobs := s2.processingJobs.erase r
              completed := s2.completed ++ [r]
              isProcessing := false
              pendingDispatch := s2.pendingDispatch + 1 }
  else s

/-- One scheduled `setTimeout(processQueue, 100)` callback fires. -/
def dispatchTimerStep (s : SysState) : SysState :=
  match s.pendingDispatch with
  | 0 => s
  | n + 1 => processQueue { s with pendingDispatch := n }

/-- Atomic segments at which the event loop can interleave requests. -/
inductive Event where
  | submit (r : Nat)
  | writeDone (r : Nat)
  | gatewayDone (r : Nat)
  | dispatchTimer
  deriving Repr, DecidableEq

/-- One atomic step of the event loop. -/
def step (env : Nat → ReqInfo) (s : SysState) : Event → SysState
  | .submit r => submitStep env r s
  | .writeDone r => writeDoneStep env r s
  | .gatewayDone r => processBackgroundRemovalStep env r s
  | .dispatchTimer => dispatchTimerStep s

/-- Run a sequence of atomic events from the fresh server state. -/
def run (env : Nat → ReqInfo) (evs : List Event) : SysState :=
  evs.foldl (step env) initState

/-- Sequential-admission semantics: each submission's capacity check and
enqueue complete with no other request interleaved at the `writeFile`
suspension (the admission described by the spec).  `submit` performs the
handler body and the write completion as one atomic unit; the other events
are unchanged. -/
def stepSeq (env : Nat → ReqInfo) (s : SysState) : Event → SysState
  | .submit r => writeDoneStep env r (submitStep env r s)
  | e => step env s e

/-- Run under sequential-admission semantics. -/
def runSeq (env : Nat → ReqInfo) (evs : List Event) : SysState :=
  evs.foldl (stepSeq env) initState

/-! ## Helper lemmas about response counting -/

theorem respCount_append (l₁ l₂ : List HttpResp) (r : Nat) :
    respCount (l₁ ++ l₂) r = respCount l₁ r + respCount l₂ r := by
  simp [respCount, List.countP_append]

theorem respCount_push (l : List HttpResp) (p : HttpResp) (r : Nat) :
    respCount (l ++ [p]) r = respCount l r + (if p.rid = r then 1 else 0) := by
  simp [respCount, List.countP_append, List.countP_cons]

/-! ## The global invariant

An inductive invariant of the event-loop transition system, strong enough
to settle the queue/executor claims.  Every field is a property of the
reachable states of `step`. -/

/-- Inductive invariant of reachable server states. -/
structure SysInv (s : SysState) : Prop where
  procLen : s.processingJobs.length ≤ 1
  procIdle : s.isProcessing = false → s.processingJobs = []
  fifo : s.enqueued = s.completed ++ s.processingJobs ++ s.requestQueue
  enqNodup : s.enqueued.Nodup
  enqCreated : ∀ r, r ∈ s.enqueued → r ∈ s.created
  writingSub : ∀ r, r ∈ s.writing → r ∈ s.submitted
  writingNodup : s.writing.Nodup
  writingNew : ∀ r, r ∈ s.writing → r ∉ s.created
  createdSub : ∀ r, r ∈ s.created → r ∈ s.submitted
  createdOnce : ∀ r, s.created.count r ≤ 1
  fileAccount : ∀ r, s.created.count r = s.files.count r + s.released.count r
  fileLive : ∀ r, r ∈ s.files ↔ (r ∈ s.requestQueue ∨ r ∈ s.processingJobs)
  respNew : ∀ r, r ∉ s.submitted → respCount s.responses r = 0
  respOnce : ∀ r, respCount s.responses r ≤ 1
  respPending : ∀ r, (r ∈ s.writing ∨ r ∈ s.requestQueue ∨ r ∈ s.processingJobs) →
    respCount s.responses r = 0
  respCompleted : ∀ r, r ∈ s.completed → respCount s.responses r = 1

/-- The fresh state satisfies the invariant. -/
theorem inv_initState : SysInv initState := by
  constructor <;> simp [initState, respCount]

/-- A job in processing is the only job in processing. -/
theorem SysInv.procSingle {s : SysState} (h : SysInv s) {r : Nat}
    (hr : r ∈ s.processingJobs) : s.processingJobs = [r] := by
  rcases hjobs : s.processingJobs with _ | ⟨a, t⟩
  · rw [hjobs] at hr; cases hr
  · have hlen := h.procLen
    rw [hjobs] at hlen hr
    cases t with
    | nil => simp at hr; simp [hr]
    | cons b t2 => simp at hlen

/-- A queued job has a created artifact. -/
theorem SysInv.queueCreated {s : SysState} (h : SysInv s) {r : Nat}
    (hr : r ∈ s.requestQueue) : r ∈ s.created := by
  refine h.enqCreated r ?_
  rw [h.fifo]; simp [hr]

/-- A processing job has a created artifact. -/
theorem SysInv.procCreated {s : SysState} (h : SysInv s) {r : Nat}
    (hr : r ∈ s.processingJobs) : r ∈ s.created := by
  refine h.enqCreated r ?_
  rw [h.fifo]; simp [hr]

/-- A completed job has a created artifact. -/
theorem SysInv.completedCreated {s : SysState} (h : SysInv s) {r : Nat}
    (hr : r ∈ s.completed) : r ∈ s.created := by
  refine h.enqCreated r ?_
  rw [h.fifo]; simp [hr]

/-- A request with no created artifact is in none of the queue, the
executor, the enqueue history, the completion history or the file store,
and has no release record. -/
theorem SysInv.freshFacts {s : SysState} (h : SysInv s) {r : Nat}
    (hr : r ∉ s.created) :
    r ∉ s.requestQueue ∧ r ∉ s.processingJobs ∧ r ∉ s.completed ∧
      r ∉ s.files ∧ s.files.count r = 0 ∧ s.released.count r = 0 := by
  have hq : r ∉ s.requestQueue := fun hmem => hr (h.queueCreated hmem)
  have hp : r ∉ s.processingJobs := fun hmem => hr (h.procCreated hmem)
  have hc : r ∉ s.completed := fun hmem => hr (h.completedCreated hmem)
  have hcount : s.created.count r = 0 := List.count_eq_zero_of_not_mem hr
  have hacc := h.fileAccount r
  rw [hcount] at hacc
  have hf0 : s.files.count r = 0 := by omega
  have hr0 : s.released.count r = 0 := by omega
  exact ⟨hq, hp, hc, List.count_eq_zero.mp hf0, hf0, hr0⟩

/-- The three segments of the enqueue history are pairwise disjoint. -/
theorem SysInv.segmentsDisjoint {s : SysState} (h : SysInv s) :
    s.completed.Disjoint s.processingJobs ∧
      s.completed.Disjoint s.requestQueue ∧
      s.processingJobs.Disjoint s.requestQueue := by
  have hnd := h.enqNodup
  rw [h.fifo] at hnd
  rw [List.nodup_append] at hnd
  obtain ⟨h1, h2, h3⟩ := hnd
  rw [List.nodup_append] at h1
  obtain ⟨h4, h5, h6⟩ := h1
  refine ⟨h6, ?_, ?_⟩
  · intro a ha hb; exact h3 (by simp [ha]) hb
  · intro a ha hb; exact h3 (by simp [ha]) hb

/-- A processing job: its artifact exists exactly once, was created
exactly once, has never been released, and no response has been sent. -/
theorem SysInv.procFacts {s : SysState} (h : SysInv s) {r : Nat}
    (hr : r ∈ s.processingJobs) :
    s.files.count r = 1 ∧ s.released.count r = 0 ∧ s.created.count r = 1 ∧
      r ∈ s.files ∧ r ∉ s.completed ∧ r ∉ s.requestQueue ∧ r ∉ s.writing ∧
      respCount s.responses r = 0 := by
  have hfile : r ∈ s.files := (h.fileLive r).mpr (Or.inr hr)
  have hfpos : 0 < s.files.count r := List.count_pos_iff.mpr hfile
  have hacc := h.fileAccount r
  have honce := h.createdOnce r
  have hf1 : s.files.count r = 1 := by omega
  have hrel : s.released.count r = 0 := by omega
  have hcr : s.created.count r = 1 := by omega
  obtain ⟨hd1, _, hd3⟩ := h.segmentsDisjoint
  have hcomp : r ∉ s.completed := fun hc => hd1 hc hr
  have hq : r ∉ s.requestQueue := hd3 hr
  have hw : r ∉ s.writing := fun hw => h.writingNew r hw (h.procCreated hr)
  exact ⟨hf1, hrel, hcr, hfile, hcomp, hq, hw,
    h.respPending r (Or.inr (Or.inr hr))⟩

/-- A request suspended in the artifact write: no artifact yet, not
enqueued anywhere, no response. -/
theorem SysInv.writingFacts {s : SysState} (h : SysInv s) {r : Nat}
    (hr : r ∈ s.writing) :
    r ∉ s.created ∧ r ∈ s.submitted ∧ r ∉ s.requestQueue ∧
      r ∉ s.processingJobs ∧ r ∉ s.completed ∧ r ∉ s.files ∧
      s.files.count r = 0 ∧ s.released.count r = 0 ∧
      respCount s.responses r = 0 := by
  have hcr := h.writingNew r hr
  obtain ⟨hq, hp, hc, hf, hf0, hr0⟩ := h.freshFacts hcr
  exact ⟨hcr, h.writingSub r hr, hq, hp, hc, hf, hf0, hr0,
    h.respPending r (Or.inl hr)⟩

/-! ## Characterization of processQueue -/

/-- Dispatch case: non-empty queue, idle executor. -/
theorem processQueue_dispatch {s : SysState} {j : Nat} {rest : List Nat}
    (hq : s.requestQueue = j :: rest) (hp : s.isProcessing = false) :
    processQueue s =
      { s with isProcessing := true, requestQueue := rest
               processingJobs := s.processingJobs ++ [j] } := by
  unfold processQueue
  rw [hq, hp]

/-- No dispatch with an empty queue. -/
theorem processQueue_empty {s : SysState} (hq : s.requestQueue = []) :
    processQueue s = s := by
  unfold processQueue
  rw [hq]

/-- No dispatch while the executor slot is taken. -/
theorem processQueue_busy {s : SysState} (hp : s.isProcessing = true) :
    processQueue s = s := by
  unfold processQueue
  rw [hp]
  rcases s.requestQueue with _ | ⟨j, rest⟩ <;> rfl

/-! ## Preservation of the invariant by each atomic step -/

/-- The synchronous dispatch prefix preserves the invariant. -/
theorem sysInv_processQueue {s : SysState} (h : SysInv s) :
    SysInv (processQueue s) := by
  rcases hq : s.requestQueue with _ | ⟨j, rest⟩
  · rw [processQueue_empty hq]; exact h
  · cases hp : s.isProcessing
    · rw [processQueue_dispatch hq hp]
      have hidle : s.processingJobs = [] := h.procIdle hp
      have hfifo := h.fifo
      rw [hq, hidle] at hfifo
      constructor
      · simp [hidle]
      · simp
      · simpa [hidle] using hfifo
      · exact h.enqNodup
      · exact h.enqCreated
      · exact h.writingSub
      · exact h.writingNodup
      · exact h.writingNew
      · exact h.createdSub
      · exact h.createdOnce
      · exact h.fileAccount
      · intro r
        have := h.fileLive r
        rw [hq, hidle] at this
        simp only [List.mem_cons, List.mem_append, List.mem_singleton,
          List.not_mem_nil, or_false] at this
        simp only [hidle, List.nil_append, List.mem_cons, List.mem_append,
          List.mem_singleton, List.not_mem_nil, or_false]
        tauto
      · exact h.respNew
      · exact h.respOnce
      · intro r hr
        simp only [List.mem_append, List.mem_singleton] at hr
        refine h.respPending r ?_
        rw [hq]
        rcases hr with hr | hr | (hr | hr)
        · exact Or.inl hr
        · exact Or.inr (Or.inl (by simp [hr]))
        · rw [hidle] at hr; cases hr
        · exact Or.inr (Or.inl (by simp [hr]))
      · exact h.respCompleted
    · rw [processQueue_busy hp]; exact h

/-! ## Characterization of submitStep -/

/-- A duplicate submission id is a no-op (each HTTP request is one id). -/
theorem submitStep_already {env : Nat → ReqInfo} {r : Nat} {s : SysState}
    (h : r ∈ s.submitted) : submitStep env r s = s := by
  unfold submitStep
  rw [if_pos h]

/-- Missing upload buffer: respond 400, touch nothing else (line 121). -/
theorem submitStep_noFile {env : Nat → ReqInfo} {r : Nat} {s : SysState}
    (h : r ∉ s.submitted) (hf : (env r).hasFile = false) :
    submitStep env r s =
      { s with submitted := s.submitted ++ [r]
               responses := s.responses ++ [⟨r, 400, "application/json"⟩] } := by
  unfold submitStep
  rw [if_neg h]
  simp only [hf]
  rfl

/-- Unsupported MIME type: respond 400 (line 136). -/
theorem submitStep_badMime {env : Nat → ReqInfo} {r : Nat} {s : SysState}
    (h : r ∉ s.submitted) (hf : (env r).hasFile = true)
    (hm : (env r).mime ∉ ALLOWED_MIME_TYPES) :
    submitStep env r s =
      { s with submitted := s.submitted ++ [r]
               responses := s.responses ++ [⟨r, 400, "application/json"⟩] } := by
  unfold submitStep
  rw [if_neg h]
  simp only [hf]
  rw [if_neg (by simp)]
  rw [if_pos (by simpa using hm)]

/-- Queue at capacity: respond 503 (lines 145-150). -/
theorem submitStep_busy {env : Nat → ReqInfo} {r : Nat} {s : SysState}
    (h : r ∉ s.submitted) (hf : (env r).hasFile = true)
    (hm : (env r).mime ∈ ALLOWED_MIME_TYPES)
    (hcap : maxQueueLength ≤ s.requestQueue.length) :
    submitStep env r s =
      { s with submitted := s.submitted ++ [r]
               responses := s.responses ++ [⟨r, 503, "application/json"⟩] } := by
  unfold submitStep
  rw [if_neg h]
  simp only [hf]
  rw [if_neg (by simp)]
  rw [if_neg (by simpa using hm)]
  rw [if_pos hcap]

/-- Admitted: start the temp-file write and suspend (line 154). -/
theorem submitStep_accept {env : Nat → ReqInfo} {r : Nat} {s : SysState}
    (h : r ∉ s.submitted) (hf : (env r).hasFile = true)
    (hm : (env r).mime ∈ ALLOWED_MIME_TYPES)
    (hcap : s.requestQueue.length < maxQueueLength) :
    submitStep env r s =
      { s with submitted := s.submitted ++ [r]
               writing := s.writing ++ [r] } := by
  unfold submitStep
  rw [if_neg h]
  simp only [hf]
  rw [if_neg (by simp)]
  rw [if_neg (by simpa using hm)]
  rw [if_neg (by omega)]

/-- Responding to a not-yet-submitted request preserves the invariant. -/
theorem sysInv_respond {s : SysState} (h : SysInv s) {r : Nat}
    (hr : r ∉ s.submitted) (st : Nat) (ct : String) :
    SysInv { s with submitted := s.submitted ++ [r]
                    responses := s.responses ++ [⟨r, st, ct⟩] } := by
  have hfresh : ∀ q, (q ∈ s.writing ∨ q ∈ s.requestQueue ∨ q ∈ s.processingJobs) →
      q ≠ r := by
    rintro q (hq | hq | hq) rfl
    · exact hr (h.writingSub q hq)
    · exact hr (h.createdSub q (h.queueCreated hq))
    · exact hr (h.createdSub q (h.procCreated hq))
  constructor
  · exact h.procLen
  · exact h.procIdle
  · exact h.fifo
  · exact h.enqNodup
  · exact h.enqCreated
  · intro q hq; simp [h.writingSub q hq]
  · exact h.writingNodup
  · exact h.writingNew
  · intro q hq; simp [h.createdSub q hq]
  · exact h.createdOnce
  · exact h.fileAccount
  · exact h.fileLive
  · intro q hq
    simp only [List.mem_append, List.mem_singleton] at hq
    push_neg at hq
    rw [respCount_push]
    simp [h.respNew q hq.1, Ne.symm hq.2]
  · intro q
    rw [respCount_push]
    by_cases hqr : q = r
    · subst hqr
      simp [h.respNew q hr]
    · simp only [HttpResp.rid] at *
      have : ¬ (r = q) := fun hh => hqr hh.symm
      simp [this, h.respOnce q]
  · intro q hq
    rw [respCount_push]
    have h1 : q ≠ r := hfresh q hq
    have h2 : ¬ r = q := fun hh => h1 hh.symm
    simp [h2, h.respPending q hq]
  · intro q hq
    rw [respCount_push]
    have hqr : q ≠ r := fun hh =>
      hr (hh ▸ h.createdSub q (h.completedCreated hq))
    have h2 : ¬ r = q := fun hh => hqr hh.symm
    simp [h2, h.respCompleted q hq]

/-- Admitting a fresh request into `writing` preserves the invariant. -/
theorem sysInv_accept {s : SysState} (h : SysInv s) {r : Nat}
    (hr : r ∉ s.submitted) :
    SysInv { s with submitted := s.submitted ++ [r]
                    writing := s.writing ++ [r] } := by
  have hrw : r ∉ s.writing := fun hh => hr (h.writingSub r hh)
  constructor
  · exact h.procLen
  · exact h.procIdle
  · exact h.fifo
  · exact h.enqNodup
  · exact h.enqCreated
  · intro q hq
    simp only [List.mem_append, List.mem_singleton] at hq ⊢
    rcases hq with hq | hq
    · exact Or.inl (h.writingSub q hq)
    · exact Or.inr hq
  · rw [List.nodup_append]
    exact ⟨h.writingNodup, List.nodup_singleton r,
      fun q hq hq2 => (List.mem_singleton.mp hq2 ▸ hrw) hq⟩
  · intro q hq
    simp only [List.mem_append, List.mem_singleton] at hq
    rcases hq with hq | hq
    · exact h.writingNew q hq
    · subst hq; exact fun hc => hr (h.createdSub q hc)
  · intro q hq; simp [h.createdSub q hq]
  · exact h.createdOnce
  · exact h.fileAccount
  · exact h.fileLive
  · intro q hq
    exact h.respNew q (fun hh => hq (by simp [hh]))
  · exact h.respOnce
  · intro q hq
    simp only [List.mem_append, List.mem_singleton] at hq
    rcases hq with (hq | hq) | hq | hq
    · exact h.respPending q (Or.inl hq)
    · subst hq; exact h.respNew q hr
    · exact h.respPending q (Or.inr (Or.inl hq))
    · exact h.respPending q (Or.inr (Or.inr hq))
  · exact h.respCompleted

/-- The submission segment preserves the invariant. -/
theorem sysInv_submitStep (env : Nat → ReqInfo) (r : Nat) {s : SysState}
    (h : SysInv s) : SysInv (submitStep env r s) := by
  by_cases hsub : r ∈ s.submitted
  · rw [submitStep_already hsub]; exact h
  · cases hf : (env r).hasFile
    · rw [submitStep_noFile hsub hf]; exact sysInv_respond h hsub 400 _
    · by_cases hm : (env r).mime ∈ ALLOWED_MIME_TYPES
      · by_cases hcap : maxQueueLength ≤ s.requestQueue.length
        · rw [submitStep_busy hsub hf hm hcap]; exact sysInv_respond h hsub 503 _
        · rw [submitStep_accept hsub hf hm (by omega)]
          exact sysInv_accept h hsub
      · rw [submitStep_badMime hsub hf hm]; exact sysInv_respond h hsub 400 _

/-! ## Characterization of writeDoneStep -/

/-- No pending write for this request: nothing happens. -/
theorem writeDone_noop {env : Nat → ReqInfo} {r : Nat} {s : SysState}
    (h : r ∉ s.writing) : writeDoneStep env r s = s := by
  unfold writeDoneStep
  rw [if_neg h]

/-- Write succeeded: the artifact exists, the job is pushed and the
dispatch prefix runs (lines 154-161). -/
theorem writeDone_ok {env : Nat → ReqInfo} {r : Nat} {s : SysState}
    (h : r ∈ s.writing) (hok : (env r).writeOk = true) :
    writeDoneStep env r s =
      processQueue
        { s with writing := s.writing.erase r
                 files := s.files ++ [r], created := s.created ++ [r]
                 requestQueue := s.requestQueue ++ [r]
                 enqueued := s.enqueued ++ [r] } := by
  unfold writeDoneStep
  rw [if_pos h]
  simp only [hok]
  rfl

/-- Write failed: the handler's catch block unlinks the artifact and
responds 500 (lines 163-173).  Stated for a request with no artifact on
disk yet and no response sent, which the invariant guarantees. -/
theorem writeDone_fail {env : Nat → ReqInfo} {r : Nat} {s : SysState}
    (h : r ∈ s.writing) (hok : (env r).writeOk = false)
    (hnf : r ∉ s.files) (hresp : respCount s.responses r = 0) :
    writeDoneStep env r s =
      { s with writing := s.writing.erase r
               created := s.created ++ [r], released := s.released ++ [r]
               responses := s.responses ++ [⟨r, 500, "application/json"⟩] } := by
  unfold writeDoneStep
  rw [if_pos h]
  simp only [hok, Bool.false_eq_true, if_false]
  rw [List.erase_append_right _ hnf]
  simp only [List.erase_cons_head, List.append_nil]
  rw [if_neg (by simp [headersSent, hresp])]

/-- The write-completion segment preserves the invariant. -/
theorem sysInv_writeDoneStep (env : Nat → ReqInfo) (r : Nat) {s : SysState}
    (h : SysInv s) : SysInv (writeDoneStep env r s) := by
  by_cases hw : r ∈ s.writing
  · obtain ⟨hcr, hsub, hq, hp, hc, hf, hf0, hr0, hresp⟩ := h.writingFacts hw
    have henq : r ∉ s.enqueued := fun hh => hcr (h.enqCreated r hh)
    have hcr0 : s.created.count r = 0 := List.count_eq_zero_of_not_mem hcr
    cases hok : (env r).writeOk
    · rw [writeDone_fail hw hok hf hresp]
      constructor
      · exact h.procLen
      · exact h.procIdle
      · exact h.fifo
      · exact h.enqNodup
      · intro q hq2; simp [h.enqCreated q hq2]
      · intro q hq2; exact h.writingSub q (List.mem_of_mem_erase hq2)
      · exact h.writingNodup.erase r
      · intro q hq2
        rw [h.writingNodup.mem_erase_iff] at hq2
        simp only [List.mem_append, List.mem_singleton]
        push_neg
        exact ⟨h.writingNew q hq2.2, hq2.1⟩
      · intro q hq2
        simp only [List.mem_append, List.mem_singleton] at hq2
        rcases hq2 with hq2 | hq2
        · exact h.createdSub q hq2
        · subst hq2; exact hsub
      · intro q
        simp only [List.count_append]
        by_cases hqr : q = r
        · subst hqr; simp [hcr0]
        · have h3 : List.count q [r] = 0 :=
            List.count_eq_zero_of_not_mem (by simp [hqr])
          have h4 := h.createdOnce q
          omega
      · intro q
        simp only [List.count_append]
        by_cases hqr : q = r
        · subst hqr; simp [hcr0, hf0, hr0]
        · have h3 : List.count q [r] = 0 :=
            List.count_eq_zero_of_not_mem (by simp [hqr])
          have h4 := h.fileAccount q
          omega
      · exact h.fileLive
      · intro q hq2
        have hqr : q ≠ r := fun hh => hq2 (by simp [hh, hsub])
        rw [respCount_push]
        have h2 : ¬ r = q := fun hh => hqr hh.symm
        have hq3 : q ∉ s.submitted := fun hh => hq2 (by simp [hh])
        simp [h2, h.respNew q hq3]
      · intro q
        rw [respCount_push]
        by_cases hqr : q = r
        · subst hqr; simp [hresp]
        · have h2 : ¬ r = q := fun hh => hqr hh.symm
          simp [h2, h.respOnce q]
      · intro q hq2
        simp only [List.mem_append, List.mem_singleton] at hq2
        rw [respCount_push]
        have hqr : q ≠ r := by
          rcases hq2 with hq2 | hq2 | hq2
          · exact (h.writingNodup.mem_erase_iff.mp hq2).1
          · rintro rfl; exact hq hq2
          · rintro rfl; exact hp hq2
        have h2 : ¬ r = q := fun hh => hqr hh.symm
        have hpend : q ∈ s.writing ∨ q ∈ s.requestQueue ∨ q ∈ s.processingJobs := by
          rcases hq2 with hq2 | hq2 | hq2
          · exact Or.inl (List.mem_of_mem_erase hq2)
          · exact Or.inr (Or.inl hq2)
          · exact Or.inr (Or.inr hq2)
        simp [h2, h.respPending q hpend]
      · intro q hq2
        rw [respCount_push]
        have hqr : q ≠ r := fun hh => hc (hh ▸ hq2)
        have h2 : ¬ r = q := fun hh => hqr hh.symm
        simp [h2, h.respCompleted q hq2]
    · rw [writeDone_ok hw hok]
      refine sysInv_processQueue ?_
      constructor
      · exact h.procLen
      · exact h.procIdle
      · rw [h.fifo]; simp
      · rw [List.nodup_append]
        exact ⟨h.enqNodup, List.nodup_singleton r,
          fun q hq2 hq3 => (List.mem_singleton.mp hq3 ▸ henq) hq2⟩
      · intro q hq2
        simp only [List.mem_append, List.mem_singleton] at hq2 ⊢
        rcases hq2 with hq2 | hq2
        · exact Or.inl (h.enqCreated q hq2)
        · exact Or.inr hq2
      · intro q hq2; exact h.writingSub q (List.mem_of_mem_erase hq2)
      · exact h.writingNodup.erase r
      · intro q hq2
        rw [h.writingNodup.mem_erase_iff] at hq2
        simp only [List.mem_append, List.mem_singleton]
        push_neg
        exact ⟨h.writingNew q hq2.2, hq2.1⟩
      · intro q hq2
        simp only [List.mem_append, List.mem_singleton] at hq2
        rcases hq2 with hq2 | hq2
        · exact h.createdSub q hq2
        · subst hq2; exact hsub
      · intro q
        simp only [List.count_append]
        by_cases hqr : q = r
        · subst hqr; simp [hcr0]
        · have h3 : List.count q [r] = 0 :=
            List.count_eq_zero_of_not_mem (by simp [hqr])
          have h4 := h.createdOnce q
          omega
      · intro q
        simp only [List.count_append]
        by_cases hqr : q = r
        · subst hqr; simp [hcr0, hf0, hr0]
        · have h3 : List.count q [r] = 0 :=
            List.count_eq_zero_of_not_mem (by simp [hqr])
          have h4 := h.fileAccount q
          omega
      · intro q
        simp only [List.mem_append, List.mem_singleton]
        by_cases hqr : q = r
        · subst hqr; simp
        · have := h.fileLive q
          tauto
      · exact h.respNew
      · exact h.respOnce
      · intro q hq2
        simp only [List.mem_append, List.mem_singleton] at hq2
        rcases hq2 with hq2 | (hq2 | hq2) | hq2
        · exact h.respPending q (Or.inl (List.mem_of_mem_erase hq2))
        · exact h.respPending q (Or.inr (Or.inl hq2))
        · subst hq2; exact hresp
        · exact h.respPending q (Or.inr (Or.inr hq2))
      · exact h.respCompleted
  · rw [writeDone_noop hw]; exact h

/-! ## Characterization of processBackgroundRemovalStep -/

/-- No such job in processing: nothing happens. -/
theorem pbr_noop {env : Nat → ReqInfo} {r : Nat} {s : SysState}
    (h : r ∉ s.processingJobs) : processBackgroundRemovalStep env r s = s := by
  unfold processBackgroundRemovalStep
  rw [if_neg h]

/-- Gateway success: unlink, respond 200 image/png, clear the slot,
schedule the next dispatch (lines 86-101, 61-69). -/
theorem pbr_ok {env : Nat → ReqInfo} {r : Nat} {s : SysState}
    (h : r ∈ s.processingJobs) (hok : (env r).gatewayOk = true) :
    processBackgroundRemovalStep env r s =
      { s with files := s.files.erase r, released := s.released ++ [r]
               responses := s.responses ++ [⟨r, 200, "image/png"⟩]
               processingJobs := s.processingJobs.erase r
               completed := s.completed ++ [r]
               isProcessing := false
               pendingDispatch := s.pendingDispatch + 1 } := by
  unfold processBackgroundRemovalStep
  rw [if_pos h]
  simp only [hok]
  rfl

/-- Gateway failure: unlink, respond 500 when no headers were sent, clear
the slot, schedule the next dispatch (lines 103-114, 61-69). -/
theorem pbr_fail {env : Nat → ReqInfo} {r : Nat} {s : SysState}
    (h : r ∈ s.processingJobs) (hok : (env r).gatewayOk = false)
    (hresp : respCount s.responses r = 0) :
    processBackgroundRemovalStep env r s =
      { s with files := s.files.erase r, released := s.released ++ [r]
               responses := s.responses ++ [⟨r, 500, "application/json"⟩]
               processingJobs := s.processingJobs.erase r
               completed := s.completed ++ [r]
               isProcessing := false
               pendingDispatch := s.pendingDispatch + 1 } := by
  unfold processBackgroundRemovalStep
  rw [if_pos h]
  simp only [hok, Bool.false_eq_true, if_false]
  rw [if_neg (by simp [headersSent, hresp])]

/-- Finishing the processing job (either outcome) preserves the
invariant. -/
theorem sysInv_finishJob {s : SysState} (h : SysInv s) {r : Nat}
    (hr : r ∈ s.processingJobs) (st : Nat) (ct : String) :
    SysInv { s with files := s.files.erase r, released := s.released ++ [r]
                    responses := s.responses ++ [⟨r, st, ct⟩]
                    processingJobs := s.processingJobs.erase r
                    completed := s.completed ++ [r]
                    isProcessing := false
                    pendingDispatch := s.pendingDispatch + 1 } := by
  obtain ⟨hf1, hrel, hcr, hfile, hcomp, hqmem, hwmem, hresp⟩ := h.procFacts hr
  have hsingle : s.processingJobs = [r] := h.procSingle hr
  have herase : s.processingJobs.erase r = [] := by
    rw [hsingle, List.erase_cons_head]
  have hrsub : r ∈ s.submitted := h.createdSub r (h.procCreated hr)
  constructor
  · simp [herase]
  · intro _; simp [herase]
  · rw [herase, h.fifo, hsingle]
    simp
  · exact h.enqNodup
  · intro q hq2; simp [h.enqCreated q hq2]
  · exact h.writingSub
  · exact h.writingNodup
  · exact h.writingNew
  · exact h.createdSub
  · exact h.createdOnce
  · intro q
    simp only [List.count_append]
    by_cases hqr : q = r
    · subst hqr
      rw [List.count_erase_self]
      have h4 := h.fileAccount q
      simp [hf1, hrel] at h4 ⊢
      omega
    · rw [List.count_erase_of_ne hqr]
      have h3 : List.count q [r] = 0 :=
        List.count_eq_zero_of_not_mem (by simp [hqr])
      have h4 := h.fileAccount q
      omega
  · intro q
    simp only [herase, List.not_mem_nil, or_false]
    by_cases hqr : q = r
    · subst hqr
      have hz : (s.files.erase q).count q = 0 := by
        rw [List.count_erase_self, hf1]
      constructor
      · intro hmem
        exact absurd (List.count_eq_zero.mp hz) (by simpa using hmem)
      · intro hmem; exact absurd hmem hqmem
    · rw [List.mem_erase_of_ne hqr]
      have := h.fileLive q
      rw [hsingle] at this
      simp only [List.mem_singleton] at this
      constructor
      · intro hmem
        rcases this.mp hmem with h5 | h5
        · exact h5
        · exact absurd h5 hqr
      · intro hmem; exact this.mpr (Or.inl hmem)
  · intro q hq2
    have hqr : q ≠ r := fun hh => hq2 (hh ▸ hrsub)
    rw [respCount_push]
    have h2 : ¬ r = q := fun hh => hqr hh.symm
    have hq3 : q ∉ s.submitted := hq2
    simp [h2, h.respNew q hq3]
  · intro q
    rw [respCount_push]
    by_cases hqr : q = r
    · subst hqr; simp [hresp]
    · have h2 : ¬ r = q := fun hh => hqr hh.symm
      simp [h2, h.respOnce q]
  · intro q hq2
    simp only [herase, List.not_mem_nil, or_false] at hq2
    have hqr : q ≠ r := by
      rintro rfl
      rcases hq2 with hq2 | hq2
      · exact hwmem hq2
      · exact hqmem hq2
    rw [respCount_push]
    have h2 : ¬ r = q := fun hh => hqr hh.symm
    have hpend : q ∈ s.writing ∨ q ∈ s.requestQueue ∨ q ∈ s.processingJobs := by
      rcases hq2 with hq2 | hq2
      · exact Or.inl hq2
      · exact Or.inr (Or.inl hq2)
    simp [h2, h.respPending q hpend]
  · intro q hq2
    simp only [List.mem_append, List.mem_singleton] at hq2
    rw [respCount_push]
    rcases hq2 with hq2 | hq2
    · have hqr : q ≠ r := fun hh => hcomp (hh ▸ hq2)
      have h2 : ¬ r = q := fun hh => hqr hh.symm
      simp [h2, h.respCompleted q hq2]
    · subst hq2; simp [hresp]

/-- The gateway-settlement segment preserves the invariant. -/
theorem sysInv_pbrStep (env : Nat → ReqInfo) (r : Nat) {s : SysState}
    (h : SysInv s) : SysInv (processBackgroundRemovalStep env r s) := by
  by_cases hr : r ∈ s.processingJobs
  · cases hok : (env r).gatewayOk
    · rw [pbr_fail hr hok (h.procFacts hr).2.2.2.2.2.2.2]
      exact sysInv_finishJob h hr 500 _
    · rw [pbr_ok hr hok]
      exact sysInv_finishJob h hr 200 _
  · rw [pbr_noop hr]; exact h

/-- The timer segment preserves the invariant. -/
theorem sysInv_dispatchTimerStep {s : SysState} (h : SysInv s) :
    SysInv (dispatchTimerStep s) := by
  unfold dispatchTimerStep
  rcases hn : s.pendingDispatch with _ | n
  · exact h
  · refine sysInv_processQueue ?_
    exact ⟨h.procLen, h.procIdle, h.fifo, h.enqNodup, h.enqCreated,
      h.writingSub, h.writingNodup, h.writingNew, h.createdSub,
      h.createdOnce, h.fileAccount, h.fileLive, h.respNew, h.respOnce,
      h.respPending, h.respCompleted⟩

/-- Every atomic event preserves the invariant. -/
theorem sysInv_step (env : Nat → ReqInfo) {s : SysState} (h : SysInv s) :
    ∀ e : Event, SysInv (step env s e)
  | .submit r => sysInv_submitStep env r h
  | .writeDone r => sysInv_writeDoneStep env r h
  | .gatewayDone r => sysInv_pbrStep env r h
  | .dispatchTimer => sysInv_dispatchTimerStep h

/-- The invariant holds along any event sequence from any invariant
state. -/
theorem sysInv_foldl (env : Nat → ReqInfo) :
    ∀ (evs : List Event) {s : SysState}, SysInv s →
      SysInv (List.foldl (step env) s evs)
  | [], _, h => h
  | e :: evs, _, h => sysInv_foldl env evs (sysInv_step env h e)

/-- Every reachable state of the server satisfies the invariant. -/
theorem sysInv_run (env : Nat → ReqInfo) (evs : List Event) :
    SysInv (run env evs) :=
  sysInv_foldl env evs inv_initState

/-! ## Frame lemmas -/

/-- Dispatch never lengthens the queue. -/
theorem processQueue_len (s : SysState) :
    (processQueue s).requestQueue.length ≤ s.requestQueue.length := by
  rcases hq : s.requestQueue with _ | ⟨j, rest⟩
  · rw [processQueue_empty hq, hq]
  · cases hp : s.isProcessing
    · rw [processQueue_dispatch hq hp]; simp [hq]
    · rw [processQueue_busy hp, hq]

/-- Dispatch does not touch the set of writing requests. -/
theorem processQueue_writing (s : SysState) :
    (processQueue s).writing = s.writing := by
  rcases hq : s.requestQueue with _ | ⟨j, rest⟩
  · rw [processQueue_empty hq]
  · cases hp : s.isProcessing
    · rw [processQueue_dispatch hq hp]
    · rw [processQueue_busy hp]

/-- Firing a scheduled timer callback runs the dispatch prefix. -/
theorem dispatchTimer_fire {s : SysState} {n : Nat}
    (hn : s.pendingDispatch = n + 1) :
    dispatchTimerStep s = processQueue { s with pendingDispatch := n } := by
  unfold dispatchTimerStep
  rw [hn]

/-- Gateway settlement touches neither the queue nor the writing set. -/
theorem pbr_frame (env : Nat → ReqInfo) (r : Nat) (s : SysState) :
    (processBackgroundRemovalStep env r s).requestQueue = s.requestQueue ∧
      (processBackgroundRemovalStep env r s).writing = s.writing := by
  unfold processBackgroundRemovalStep
  split_ifs <;> simp
  constructor <;> (split <;> rfl)

/-! ## The sequential-admission invariant -/

/-- Invariant of runs in which each admission (capacity check through
enqueue) completes atomically: the global invariant, the queue bound, and
the emptiness of the writing set. -/
structure SeqInv (s : SysState) : Prop where
  inv : SysInv s
  qlen : s.requestQueue.length ≤ maxQueueLength
  wempty : s.writing = []

/-- Queue bound and writing frame for one atomic admission. -/
theorem seqSubmit_frame (env : Nat → ReqInfo) (r : Nat) {s : SysState}
    (h : SysInv s) (hq : s.requestQueue.length ≤ maxQueueLength)
    (hw : s.writing = []) :
    (writeDoneStep env r (submitStep env r s)).requestQueue.length ≤
        maxQueueLength ∧
      (writeDoneStep env r (submitStep env r s)).writing = [] := by
  by_cases hsub : r ∈ s.submitted
  · rw [submitStep_already hsub, writeDone_noop (by simp [hw])]
    exact ⟨hq, hw⟩
  · cases hf : (env r).hasFile
    · rw [submitStep_noFile hsub hf, writeDone_noop (by simp [hw])]
      exact ⟨hq, hw⟩
    · by_cases hm : (env r).mime ∈ ALLOWED_MIME_TYPES
      · by_cases hcap : maxQueueLength ≤ s.requestQueue.length
        · rw [submitStep_busy hsub hf hm hcap, writeDone_noop (by simp [hw])]
          exact ⟨hq, hw⟩
        · rw [submitStep_accept hsub hf hm (by omega)]
          have hs2 : SysInv { s with submitted := s.submitted ++ [r]
                                     writing := s.writing ++ [r] } := by
            rw [← submitStep_accept hsub hf hm (by omega)]
            exact sysInv_submitStep env r h
          have hmem : r ∈ ({ s with submitted := s.submitted ++ [r]
                                    writing := s.writing ++ [r] } :
              SysState).writing := by simp
          cases hok : (env r).writeOk
          · obtain ⟨_, _, _, _, _, hnf, _, _, hresp⟩ := hs2.writingFacts hmem
            rw [writeDone_fail hmem hok hnf hresp]
            exact ⟨hq, by simp [hw]⟩
          · rw [writeDone_ok hmem hok]
            constructor
            · refine le_trans (processQueue_len _) ?_
              simp only [List.length_append, List.length_singleton]
              omega
            · rw [processQueue_writing]
              simp [hw]
      · rw [submitStep_badMime hsub hf hm, writeDone_noop (by simp [hw])]
        exact ⟨hq, hw⟩

/-- Every sequential-admission event preserves `SeqInv`. -/
theorem seqInv_stepSeq (env : Nat → ReqInfo) {s : SysState} (h : SeqInv s) :
    ∀ e : Event, SeqInv (stepSeq env s e)
  | .submit r => by
      obtain ⟨h1, h2⟩ := seqSubmit_frame env r h.inv h.qlen h.wempty
      exact ⟨sysInv_writeDoneStep env r (sysInv_submitStep env r h.inv), h1, h2⟩
  | .writeDone r => by
      show SeqInv (writeDoneStep env r s)
      rw [writeDone_noop (by simp [h.wempty])]
      exact h
  | .gatewayDone r => by
      show SeqInv (processBackgroundRemovalStep env r s)
      obtain ⟨h1, h2⟩ := pbr_frame env r s
      exact ⟨sysInv_pbrStep env r h.inv, by rw [h1]; exact h.qlen,
        by rw [h2]; exact h.wempty⟩
  | .dispatchTimer => by
      show SeqInv (dispatchTimerStep s)
      unfold dispatchTimerStep
      rcases hn : s.pendingDispatch with _ | n
      · exact h
      · have hinv : SysInv { s with pendingDispatch := n } :=
          ⟨h.inv.procLen, h.inv.procIdle, h.inv.fifo, h.inv.enqNodup,
            h.inv.enqCreated, h.inv.writingSub, h.inv.writingNodup,
            h.inv.writingNew, h.inv.createdSub, h.inv.createdOnce,
            h.inv.fileAccount, h.inv.fileLive, h.inv.respNew, h.inv.respOnce,
            h.inv.respPending, h.inv.respCompleted⟩
        refine ⟨sysInv_processQueue hinv, ?_, ?_⟩
        · exact le_trans (processQueue_len _) h.qlen
        · rw [processQueue_writing]; exact h.wempty

/-- `SeqInv` holds along any sequential-admission run. -/
theorem seqInv_foldl (env : Nat → ReqInfo) :
    ∀ (evs : List Event) {s : SysState}, SeqInv s →
      SeqInv (List.foldl (stepSeq env) s evs)
  | [], _, h => h
  | e :: evs, _, h => seqInv_foldl env evs (seqInv_stepSeq env h e)

/-- `SeqInv` holds in every state of a sequential-admission run. -/
theorem seqInv_runSeq (env : Nat → ReqInfo) (evs : List Event) :
    SeqInv (runSeq env evs) :=
  seqInv_foldl env evs ⟨inv_initState, by simp [initState, maxQueueLength], rfl⟩

/-! ## Model of the guarded artifact cleanup (resource release)

The cleanup construct of `server.js` is `try { await unlink(inPath) }
catch {}` (lines 92-94, 107-109, 166-168): deletion of a missing path
fails inside `unlink`, and the catch swallows every cleanup error. -/

/-- Model of `fs.promises.unlink`: removes the path when it exists,
otherwise fails (ENOENT). -/
def unlink (fs : List Nat) (p : Nat) : Except Unit (List Nat) :=
  if p ∈ fs then .ok (fs.erase p) else .error ()

/-- Model of the guarded cleanup `try { await unlink(inPath) } catch {}`:
the catch swallows the failure, so the construct never propagates an
error. -/
def releaseArtifactCaught (fs : List Nat) (p : Nat) : Except Unit (List Nat) :=
  match unlink fs p with
  | .ok fs2 => .ok fs2
  | .error _ => .ok fs

/-- Resulting filesystem after the guarded cleanup. -/
def releaseArtifact (fs : List Nat) (p : Nat) : List Nat :=
  match releaseArtifactCaught fs p with
  | .ok fs2 => fs2
  | .error _ => fs

/-! ## Scenario environments and traces -/

/-- Environment of well-behaved requests: a PNG upload, successful write,
successful gateway. -/
def envAll : Nat → ReqInfo := fun _ => ⟨true, "image/png", true, true⟩

/-- Environment in which the transformation gateway fails every job. -/
def envFail : Nat → ReqInfo := fun _ => ⟨true, "image/png", true, false⟩

/-- Environment in which multer produced no file buffer. -/
def envNoFile : Nat → ReqInfo := fun _ => ⟨false, "image/png", true, true⟩

/-- Environment of uploads with an unsupported MIME type. -/
def envBadMime : Nat → ReqInfo := fun _ => ⟨true, "text/plain", true, true⟩

/-- Five requests interleaved at the `writeFile` suspension: each passes
the capacity check before any enqueue happens. -/
def overloadTrace : List Event :=
  [.submit 1, .submit 2, .submit 3, .submit 4, .submit 5,
   .writeDone 1, .writeDone 2, .writeDone 3, .writeDone 4, .writeDone 5]

/-- Five back-to-back (non-interleaved) submissions; the first job is
still processing (its gateway never settles in the trace). -/
def burstTrace : List Event :=
  [.submit 1, .writeDone 1, .submit 2, .writeDone 2, .submit 3,
   .writeDone 3, .submit 4, .writeDone 4, .submit 5]

/-! ## Claims -/

/-- C1, counterexample: the claim that
`len(requestQueue) ≤ maxQueueLength` holds at every observable instant
for every sequence of submissions is false: the capacity check (line 145)
and the enqueue (line 160) are split by the `await writeFile` suspension
(line 154), so five submissions interleaved at that point all pass the
check against a short queue and then all enqueue, driving the queue to
length 4 > 3. -/
theorem C1_queue_bound_counterexample :
    ¬ ∀ (env : Nat → ReqInfo) (evs : List Event),
        (run env evs).requestQueue.length ≤ maxQueueLength := by
  intro hall
  have hcontra := hall envAll overloadTrace
  revert hcontra
  decide

/-- C1, amended: when each admission (capacity check through enqueue)
completes without another submission interleaving at the temp-file-write
suspension, the pending queue length never exceeds `maxQueueLength` at
any observable instant. -/
theorem C1_queue_bound_sequential (env : Nat → ReqInfo) (evs : List Event) :
    (runSeq env evs).requestQueue.length ≤ maxQueueLength :=
  (seqInv_runSeq env evs).qlen

/-- C2: in every reachable state, every created temp artifact has been
unlinked at most once, the unlink count accounts exactly for creation
minus continued existence (so each terminated job released its artifact
exactly once and no path released it twice), and an artifact exists on
disk exactly while its job is queued or processing (no leak). -/
theorem C2_artifact_released_exactly_once (env : Nat → ReqInfo)
    (evs : List Event) (r : Nat) :
    (run env evs).released.count r ≤ 1 ∧
      (run env evs).created.count r =
        (run env evs).files.count r + (run env evs).released.count r ∧
      (r ∈ (run env evs).files ↔
        (r ∈ (run env evs).requestQueue ∨ r ∈ (run env evs).processingJobs)) := by
  have h := sysInv_run env evs
  refine ⟨?_, h.fileAccount r, h.fileLive r⟩
  have h1 := h.createdOnce r
  have h2 := h.fileAccount r
  omega

/-- C3: in every reachable state, every request has received at most one
response, and every job whose processing settled has received exactly
one (success or failure, never zero, never two). -/
theorem C3_exactly_one_result (env : Nat → ReqInfo) (evs : List Event)
    (r : Nat) :
    respCount (run env evs).responses r ≤ 1 ∧
      (r ∈ (run env evs).completed →
        respCount (run env evs).responses r = 1) := by
  have h := sysInv_run env evs
  exact ⟨h.respOnce r, h.respCompleted r⟩

/-- C3, witness: a job admitted, processed and completed receives exactly
one response. -/
theorem C3_exactly_one_result_witness :
    respCount (run envAll [.submit 1, .writeDone 1, .gatewayDone 1]).responses
      1 = 1 :=
  (C3_exactly_one_result envAll [.submit 1, .writeDone 1, .gatewayDone 1] 1).2
    (by decide)

/-- C4: in every reachable state at most one job is in processing
(`maxConcurrency = 1`), and whenever the `isProcessing` slot flag is
clear no job is in processing (the flag is cleared only after the job
settles). -/
theorem C4_single_slot_executor (env : Nat → ReqInfo) (evs : List Event) :
    (run env evs).processingJobs.length ≤ 1 ∧
      ((run env evs).isProcessing = false →
        (run env evs).processingJobs = []) := by
  have h := sysInv_run env evs
  exact ⟨h.procLen, h.procIdle⟩

/-- C4, witness: in the fresh state the slot flag is clear and no job is
processing. -/
theorem C4_single_slot_executor_witness :
    (run envAll []).processingJobs = [] :=
  (C4_single_slot_executor envAll []).2 (by decide)

/-- C5: in every reachable state the enqueue history splits exactly into
completed jobs, then the processing job, then the still-queued jobs, and
no job is enqueued twice: jobs enter processing in strict FIFO enqueue
order and complete in that same order. -/
theorem C5_fifo_order (env : Nat → ReqInfo) (evs : List Event) :
    (run env evs).enqueued =
        (run env evs).completed ++ (run env evs).processingJobs ++
          (run env evs).requestQueue ∧
      (run env evs).enqueued.Nodup := by
  have h := sysInv_run env evs
  exact ⟨h.fifo, h.enqNodup⟩

/-- C6: queue capacity 3, concurrency 1, five back-to-back submissions
with job 1 still processing: jobs 1-4 are admitted (job 1 dispatched
into processing, jobs 2-4 queued), and job 5 is rejected with 503
because the processing job was removed from the queue at dispatch and
does not count toward the capacity check. -/
theorem C6_burst_scenario :
    (run envAll burstTrace).processingJobs = [1] ∧
      (run envAll burstTrace).requestQueue = [2, 3, 4] ∧
      (run envAll burstTrace).enqueued = [1, 2, 3, 4] ∧
      (run envAll burstTrace).responses =
        [⟨5, 503, "application/json"⟩] := by
  decide

/-- Settling a failing processing job and then firing the dispatch timer,
written out on an explicit state: the job gets its 500 response and its
unlink, the slot clears, and the dispatch starts the next queued job. -/
theorem finish_then_dispatch (env : Nat → ReqInfo) (r j : Nat)
    (rest : List Nat) (sub wr : List Nat) (ip : Bool) (pd : Nat)
    (fl cr rl enq cp : List Nat) (rs : List HttpResp)
    (hgw : (env r).gatewayOk = false) (hresp : respCount rs r = 0) :
    step env
        (step env ⟨sub, wr, j :: rest, ip, [r], pd, fl, cr, rl, enq, cp, rs⟩
          (.gatewayDone r))
        .dispatchTimer =
      ⟨sub, wr, rest, true, [j], pd, fl.erase r, cr, rl ++ [r], enq,
        cp ++ [r], rs ++ [⟨r, 500, "application/json"⟩]⟩ := by
  show dispatchTimerStep (processBackgroundRemovalStep env r
    ⟨sub, wr, j :: rest, ip, [r], pd, fl, cr, rl, enq, cp, rs⟩) = _
  rw [@pbr_fail env r ⟨sub, wr, j :: rest, ip, [r], pd, fl, cr, rl, enq, cp, rs⟩
    (by simp) hgw hresp]
  simp only [List.erase_cons_head]
  rfl

/-- C7: a gateway failure does not poison the executor: from any state
where the single processing job `r` fails with a queued job `j` behind
it, the settlement delivers exactly one 500 failure response for `r`,
releases its artifact, clears the slot, and the scheduled dispatch then
starts `j` normally. -/
theorem C7_gateway_failure_no_poison (env : Nat → ReqInfo) (s : SysState)
    (r j : Nat) (rest : List Nat) (hproc : s.processingJobs = [r])
    (hgw : (env r).gatewayOk = false) (hq : s.requestQueue = j :: rest)
    (hresp : respCount s.responses r = 0) :
    (step env (step env s (.gatewayDone r)) .dispatchTimer).responses =
        s.responses ++ [⟨r, 500, "application/json"⟩] ∧
      r ∈ (step env (step env s (.gatewayDone r)) .dispatchTimer).released ∧
      (step env (step env s (.gatewayDone r)) .dispatchTimer).processingJobs =
        [j] ∧
      (step env (step env s (.gatewayDone r)) .dispatchTimer).requestQueue =
        rest ∧
      (step env (step env s (.gatewayDone r)) .dispatchTimer).isProcessing =
        true := by
  rcases s with ⟨sub, wr, rq, ip, pj, pd, fl, cr, rl, enq, cp, rs⟩
  dsimp only at hproc hq hresp ⊢
  subst hproc
  subst hq
  rw [finish_then_dispatch env r j rest sub wr ip pd fl cr rl enq cp rs
    hgw hresp]
  refine ⟨rfl, by simp, rfl, rfl, rfl⟩

/-- C7, witness: with the gateway failing job 1 and job 2 queued, after
job 1 settles and the timer fires, job 2 is processing. -/
theorem C7_gateway_failure_no_poison_witness :
    (step envFail (step envFail
        (run envFail [.submit 1, .writeDone 1, .submit 2, .writeDone 2])
        (.gatewayDone 1)) .dispatchTimer).processingJobs = [2] :=
  (C7_gateway_failure_no_poison envFail
    (run envFail [.submit 1, .writeDone 1, .submit 2, .writeDone 2])
    1 2 [] (by decide) (by decide) (by decide) (by decide)).2.2.1

/-- C8: the endpoint classifies outcomes with distinct signals: a missing
upload responds 400 JSON; an unsupported MIME type responds 400 JSON; a
submission with the queue at capacity responds 503 JSON; a successful
transformation responds 200 with Content-Type image/png; a gateway
failure responds 500 JSON. -/
theorem C8_http_status_classification (env : Nat → ReqInfo) (s : SysState)
    (r : Nat) (hfresh : r ∉ s.submitted) :
    ((env r).hasFile = false →
        (step env s (.submit r)).responses =
          s.responses ++ [⟨r, 400, "application/json"⟩]) ∧
      ((env r).hasFile = true → (env r).mime ∉ ALLOWED_MIME_TYPES →
        (step env s (.submit r)).responses =
          s.responses ++ [⟨r, 400, "application/json"⟩]) ∧
      ((env r).hasFile = true → (env r).mime ∈ ALLOWED_MIME_TYPES →
        maxQueueLength ≤ s.requestQueue.length →
        (step env s (.submit r)).responses =
          s.responses ++ [⟨r, 503, "application/json"⟩]) ∧
      (∀ q, q ∈ s.processingJobs → (env q).gatewayOk = true →
        (step env s (.gatewayDone q)).responses =
          s.responses ++ [⟨q, 200, "image/png"⟩]) ∧
      (∀ q, q ∈ s.processingJobs → (env q).gatewayOk = false →
        respCount s.responses q = 0 →
        (step env s (.gatewayDone q)).responses =
          s.responses ++ [⟨q, 500, "application/json"⟩]) := by
  refine ⟨?_, ?_, ?_, ?_, ?_⟩
  · intro hf
    show (submitStep env r s).responses = _
    rw [submitStep_noFile hfresh hf]
  · intro hf hm
    show (submitStep env r s).responses = _
    rw [submitStep_badMime hfresh hf hm]
  · intro hf hm hcap
    show (submitStep env r s).responses = _
    rw [submitStep_busy hfresh hf hm hcap]
  · intro q hqmem hok
    show (processBackgroundRemovalStep env q s).responses = _
    rw [pbr_ok hqmem hok]
  · intro q hqmem hok hresp
    show (processBackgroundRemovalStep env q s).responses = _
    rw [pbr_fail hqmem hok hresp]

/-- C8, witness: each of the five classifications at a concrete state. -/
theorem C8_http_status_classification_witness :
    (step envNoFile initState (.submit 1)).responses =
        initState.responses ++ [⟨1, 400, "application/json"⟩] ∧
      (step envBadMime initState (.submit 1)).responses =
        initState.responses ++ [⟨1, 400, "application/json"⟩] ∧
      (step envAll (run envAll overloadTrace) (.submit 9)).responses =
        (run envAll overloadTrace).responses ++
          [⟨9, 503, "application/json"⟩] ∧
      (step envAll (run envAll [.submit 1, .writeDone 1])
          (.gatewayDone 1)).responses =
        (run envAll [.submit 1, .writeDone 1]).responses ++
          [⟨1, 200, "image/png"⟩] ∧
      (step envFail (run envFail [.submit 1, .writeDone 1])
          (.gatewayDone 1)).responses =
        (run envFail [.submit 1, .writeDone 1]).responses ++
          [⟨1, 500, "application/json"⟩] :=
  ⟨(C8_http_status_classification envNoFile initState 1 (by decide)).1
      (by decide),
   (C8_http_status_classification envBadMime initState 1 (by decide)).2.1
      (by decide) (by decide),
   (C8_http_status_classification envAll (run envAll overloadTrace) 9
      (by decide)).2.2.1 (by decide) (by decide) (by decide),
   (C8_http_status_classification envAll (run envAll [.submit 1, .writeDone 1])
      9 (by decide)).2.2.2.1 1 (by decide) (by decide),
   (C8_http_status_classification envFail (run envFail [.submit 1, .writeDone 1])
      9 (by decide)).2.2.2.2 1 (by decide) (by decide) (by decide)⟩

/-- C9: the guarded artifact cleanup never throws to its caller (it
always returns ok), releasing twice equals releasing once (no observable
change beyond the first release), and releasing a missing artifact
changes nothing. -/
theorem C9_release_idempotent_no_throw (fs : List Nat) (p : Nat)
    (hnd : fs.Nodup) :
    releaseArtifactCaught fs p = .ok (fs.erase p) ∧
      releaseArtifact (releaseArtifact fs p) p = releaseArtifact fs p ∧
      (p ∉ fs → releaseArtifact fs p = fs) := by
  have hca : ∀ l : List Nat, releaseArtifactCaught l p = .ok (l.erase p) := by
    intro l
    by_cases hp : p ∈ l
    · simp [releaseArtifactCaught, unlink, hp]
    · simp [releaseArtifactCaught, unlink, hp, List.erase_of_not_mem hp]
  have hra : ∀ l : List Nat, releaseArtifact l p = l.erase p := by
    intro l
    simp [releaseArtifact, hca l]
  refine ⟨hca fs, ?_, ?_⟩
  · rw [hra, hra]
    have hno : p ∉ fs.erase p := fun hmem =>
      ((hnd.mem_erase_iff).mp hmem).1 rfl
    rw [List.erase_of_not_mem hno]
  · intro hp
    rw [hra, List.erase_of_not_mem hp]

/-- C9, witness: double release of an existing artifact. -/
theorem C9_release_idempotent_no_throw_witness :
    releaseArtifact (releaseArtifact [5] 5) 5 = releaseArtifact [5] 5 :=
  (C9_release_idempotent_no_throw [5] 5 (by decide)).2.1

/-- C10: every rejection before admission (missing file, unsupported MIME
type, or queue at capacity) responds without creating a temp artifact,
without enqueuing, and without touching the executor slot flag, the
queue, the file store, or any release record. -/
theorem C10_rejection_frame (env : Nat → ReqInfo) (s : SysState) (r : Nat)
    (hfresh : r ∉ s.submitted)
    (hrej : (env r).hasFile = false ∨ (env r).mime ∉ ALLOWED_MIME_TYPES ∨
      maxQueueLength ≤ s.requestQueue.length) :
    (step env s (.submit r)).requestQueue = s.requestQueue ∧
      (step env s (.submit r)).isProcessing = s.isProcessing ∧
      (step env s (.submit r)).processingJobs = s.processingJobs ∧
      (step env s (.submit r)).files = s.files ∧
      (step env s (.submit r)).created = s.created ∧
      (step env s (.submit r)).released = s.released ∧
      (step env s (.submit r)).writing = s.writing ∧
      (step env s (.submit r)).enqueued = s.enqueued ∧
      (step env s (.submit r)).pendingDispatch = s.pendingDispatch := by
  have key : ∃ resp : HttpResp, submitStep env r s =
      { s with submitted := s.submitted ++ [r]
               responses := s.responses ++ [resp] } := by
    cases hf : (env r).hasFile
    · exact ⟨_, submitStep_noFile hfresh hf⟩
    · by_cases hm : (env r).mime ∈ ALLOWED_MIME_TYPES
      · by_cases hcap : maxQueueLength ≤ s.requestQueue.length
        · exact ⟨_, submitStep_busy hfresh hf hm hcap⟩
        · rcases hrej with h1 | h1 | h1
          · rw [hf] at h1; cases h1
          · exact (h1 hm).elim
          · exact (hcap h1).elim
      · exact ⟨_, submitStep_badMime hfresh hf hm⟩
  obtain ⟨resp, hkey⟩ := key
  rw [show step env s (.submit r) = submitStep env r s from rfl, hkey]
  exact ⟨rfl, rfl, rfl, rfl, rfl, rfl, rfl, rfl, rfl⟩

/-- C10, witness: a missing-file rejection leaves the queue untouched. -/
theorem C10_rejection_frame_witness :
    (step envNoFile initState (.submit 1)).requestQueue =
      initState.requestQueue :=
  (C10_rejection_frame envNoFile initState 1 (by decide)
    (Or.inl (by decide))).1
